import Mathlib

/-!
Shallow embedding of the BMRS data cleaning and quality-flagging pipeline
(`src/utils/data_processor.py`, class `BMRSDataProcessor`) together with its
error type (`src/utils/helpers.py`, `BMRSError`).

Modelling conventions:
* A pandas dataframe is modelled column-wise; a nullable numeric cell is
  `Option ℚ` (NaN = `none`); float64 arithmetic is modelled by exact rational
  arithmetic.
* Timestamps are minutes (as `Int`); `NaT` is `none`.
* A raw (pre-coercion) cell is `RawValue`: either an already numeric value, or
  a value that `pd.to_numeric(..., errors := coerce)` cannot parse, or a null.
* `df.interpolate(method := linear, limit := 2)` is modelled positionally with
  pandas semantics: values are computed by `np.interp` (linear between the
  surrounding valid points, clamped to the last valid value past the end) and
  then, with the default forward limit direction, NaNs before the first valid
  point and NaNs at position greater than `limit` inside a consecutive NaN run
  are preserved.
-/

namespace BMRS

/-- A raw cell of one of the three numeric columns before coercion:
`num q` is an already numeric value, `unparsable` a value that numeric
coercion cannot parse, `null` a missing value. -/
inductive RawValue where
  | num (q : ℚ)
  | unparsable
  | null
deriving DecidableEq, Repr

/-- One raw input record (one row of the dataframe handed to
`clean_and_process_data`): a possibly-null timestamp and the three numeric
fields `systemSellPrice`, `systemBuyPrice`, `netImbalanceVolume`. -/
structure RawRecord where
  timestamp : Option Int
  systemSellPrice : RawValue
  systemBuyPrice : RawValue
  netImbalanceVolume : RawValue
deriving DecidableEq, Repr

/-- `pd.to_numeric(value, errors='coerce')` on a single cell: numeric values
pass through, anything unparsable or null becomes missing; never fails. -/
def to_numeric : RawValue → Option ℚ
  | .num q => some q
  | .unparsable => none
  | .null => none

/-- A record after the coercion step: the three numeric fields are nullable
rationals. -/
structure Row where
  timestamp : Option Int
  systemSellPrice : Option ℚ
  systemBuyPrice : Option ℚ
  netImbalanceVolume : Option ℚ
deriving DecidableEq, Repr

/-- The coercion loop `df[col] = pd.to_numeric(df[col], errors='coerce')`
applied to the three numeric columns of one row. -/
def coerceRecord (r : RawRecord) : Row :=
  ⟨r.timestamp, to_numeric r.systemSellPrice, to_numeric r.systemBuyPrice,
    to_numeric r.netImbalanceVolume⟩

/-- Comparison used by `df.sort_values('timestamp')`: ascending timestamps,
null timestamps placed last (pandas default `na_position='last'`). -/
def rowLe (a b : Row) : Bool :=
  match a.timestamp, b.timestamp with
  | some x, some y => x ≤ y
  | some _, none => true
  | none, some _ => false
  | none, none => true

/-- `df = df.sort_values('timestamp')`: sort by timestamp ascending (the
later pipeline steps depend only on the multiset of rows, so any sort
by `rowLe` is a faithful model). -/
def sortRows (rows : List Row) : List Row :=
  rows.insertionSort (fun a b => rowLe a b = true)

/-- `pd.date_range(start, end, freq='30min')`: timestamps `lo, lo+30, ...`
up to and including `hi` when `hi - lo` is a multiple of 30 minutes. -/
def dateRange30 (lo hi : Int) : List Int :=
  (List.range ((hi - lo).toNat / 30 + 1)).map (fun k => lo + 30 * (k : Int))

/-- Calendar construction: `pd.date_range(df['timestamp'].min(),
df['timestamp'].max(), freq='30min')`.  `min`/`max` skip null timestamps;
when no non-null timestamp exists they are `NaT` and `pd.date_range` raises,
so the result is `none`. -/
def calendarOf (rows : List Row) : Option (List Int) :=
  match (rows.filterMap (·.timestamp)).min?, (rows.filterMap (·.timestamp)).max? with
  | some lo, some hi => some (dateRange30 lo hi)
  | _, _ => none

/-- One row of the merged (reindexed) dataframe: the calendar timestamp plus
the three numeric columns. -/
structure MRow where
  timestamp : Int
  systemSellPrice : Option ℚ
  systemBuyPrice : Option ℚ
  netImbalanceVolume : Option ℚ
deriving DecidableEq, Repr

/-- The rows one calendar slot contributes to the left join: each matching
data row (in data order), or a single all-missing row when none matches. -/
def mergeGroup (rows : List Row) (t : Int) : List MRow :=
  match rows.filter (fun r => r.timestamp == some t) with
  | [] => [⟨t, none, none, none⟩]
  | ms => ms.map fun r =>
      ⟨t, r.systemSellPrice, r.systemBuyPrice, r.netImbalanceVolume⟩

/-- `pd.merge(template_df, df, on='timestamp', how='left')`: every calendar
slot keeps each matching data row (in data order); a slot with no match
becomes a row whose numeric columns are all missing. -/
def mergeLeft (cal : List Int) (rows : List Row) : List MRow :=
  cal.flatMap (mergeGroup rows)

/-- Whether position `j` of a column holds a (non-null) value. -/
def isValidAt (ys : List (Option ℚ)) (j : Nat) : Bool :=
  (ys.getD j none).isSome

/-- Index of the last valid entry strictly before position `i`, if any. -/
def prevValidIdx (ys : List (Option ℚ)) (i : Nat) : Option Nat :=
  ((List.range i).filter (isValidAt ys)).getLast?

/-- Index of the first valid entry strictly after position `i`, if any. -/
def nextValidIdx (ys : List (Option ℚ)) (i : Nat) : Option Nat :=
  ((List.range ys.length).filter (fun j => decide (i < j) && isValidAt ys j)).head?

/-- The numeric value stored at position `j` (0 when null; only used at valid
positions). -/
def valAt (ys : List (Option ℚ)) (j : Nat) : ℚ :=
  (ys.getD j none).getD 0

/-- Value of one cell of `df.interpolate(method='linear', limit=lim)` with
pandas defaults (`limit_direction='forward'`, positional spacing): a null at
position `i` is left null when there is no valid entry before it, or when it
sits more than `lim` places after the previous valid entry; otherwise it is
filled with the `np.interp` value — the linear interpolant between the
surrounding valid entries, or the last valid value when no valid entry
follows. -/
def interpAt (lim : Nat) (ys : List (Option ℚ)) (i : Nat) : Option ℚ :=
  match ys.getD i none with
  | some v => some v
  | none =>
    match prevValidIdx ys i with
    | none => none
    | some a =>
      if lim < i - a then none
      else
        match nextValidIdx ys i with
        | some b =>
            some (valAt ys a +
              (valAt ys b - valAt ys a) * (((i : ℚ) - (a : ℚ)) / ((b : ℚ) - (a : ℚ))))
        | none => some (valAt ys a)

/-- One column of `df.interpolate(method='linear', limit=lim)`. -/
def interpCol (lim : Nat) (ys : List (Option ℚ)) : List (Option ℚ) :=
  (List.range ys.length).map (interpAt lim ys)

/-- Vectorised subtraction `df['systemBuyPrice'] - df['systemSellPrice']` on
one pair of cells (NaN propagates). -/
def optSub (a b : Option ℚ) : Option ℚ :=
  match a, b with
  | some x, some y => some (x - y)
  | _, _ => none

/-- The vectorised comparison `price_spread < 0` on one cell
(`NaN < 0` is false). -/
def negSpread (o : Option ℚ) : Bool :=
  match o with
  | some q => decide (q < 0)
  | none => false

/-- The `prices_df` dataframe, column-wise. -/
structure PricesDF where
  timestamp : List Int
  system_sell_price : List (Option ℚ)
  system_buy_price : List (Option ℚ)
  price_spread : List (Option ℚ)
  is_interpolated_sell : List Bool
  is_interpolated_buy : List Bool
  price_quality : List String
deriving DecidableEq, Repr

/-- The `volumes_df` dataframe, column-wise. -/
structure VolumesDF where
  timestamp : List Int
  net_imbalance_volume : List (Option ℚ)
  abs_imbalance_volume : List (Option ℚ)
  volume_quality : List String
deriving DecidableEq, Repr

/-- `BMRSDataProcessor._get_price_quality_flag`: `np.select` over the three
condition arrays with choices `Missing`, `Interpolated`, `Anomaly` and
default `Good` (first matching condition wins). -/
def _get_price_quality_flag (df : PricesDF) : List String :=
  let c1 := List.zipWith or (df.system_sell_price.map Option.isNone)
    (df.system_buy_price.map Option.isNone)
  let c2 := List.zipWith or df.is_interpolated_sell df.is_interpolated_buy
  let c3 := df.price_spread.map negSpread
  (List.range c1.length).map fun i =>
    if c1.getD i false then "Missing"
    else if c2.getD i false then "Interpolated"
    else if c3.getD i false then "Anomaly"
    else "Good"

/-- `BMRSDataProcessor._get_volume_quality_flag`: `np.select` with conditions
`isna()` and `isna() & notna()` (the second is the source's literal
"was interpolated" condition), choices `Missing`, `Interpolated`, default
`Good`. -/
def _get_volume_quality_flag (df : VolumesDF) : List String :=
  let c1 := df.net_imbalance_volume.map Option.isNone
  let c2 := List.zipWith and (df.net_imbalance_volume.map Option.isNone)
    (df.net_imbalance_volume.map Option.isSome)
  (List.range c1.length).map fun i =>
    if c1.getD i false then "Missing"
    else if c2.getD i false then "Interpolated"
    else "Good"

/-- Steps of `clean_and_process_data` after the calendar is built: left-join
reindex onto the calendar, capture of the pre-fill interpolation masks,
linear interpolation limited to 2 consecutive periods, construction of
`prices_df` and `volumes_df`, and the quality-flag columns. -/
def buildFrames (cal : List Int) (rows : List Row) : PricesDF × VolumesDF :=
  let merged := mergeLeft cal rows
  let interpSellMask := merged.map (fun m => m.systemSellPrice.isNone)
  let interpBuyMask := merged.map (fun m => m.systemBuyPrice.isNone)
  let sellF := interpCol 2 (merged.map (·.systemSellPrice))
  let buyF := interpCol 2 (merged.map (·.systemBuyPrice))
  let volF := interpCol 2 (merged.map (·.netImbalanceVolume))
  let prices0 : PricesDF :=
    { timestamp := merged.map (·.timestamp)
      system_sell_price := sellF
      system_buy_price := buyF
      price_spread := List.zipWith optSub buyF sellF
      is_interpolated_sell := interpSellMask
      is_interpolated_buy := interpBuyMask
      price_quality := [] }
  let volumes0 : VolumesDF :=
    { timestamp := merged.map (·.timestamp)
      net_imbalance_volume := volF
      abs_imbalance_volume := volF.map (Option.map (fun q => |q|))
      volume_quality := [] }
  ({ prices0 with price_quality := _get_price_quality_flag prices0 },
   { volumes0 with volume_quality := _get_volume_quality_flag volumes0 })

/-- The exception type of `src/utils/helpers.py` (`class BMRSError`); the
processing failure the spec calls `DataProcessingError`. -/
structure BMRSError where
  message : String
deriving DecidableEq, Repr

/-- The coerced and sorted working dataframe of `clean_and_process_data`. -/
def sortedRowsOf (records : List RawRecord) : List Row :=
  sortRows (records.map coerceRecord)

/-- The calendar `clean_and_process_data` builds for an input batch (`none`
when `pd.date_range` would raise on `NaT` bounds, i.e. when no non-null
timestamp exists — in particular on an empty batch). -/
def calendarOfRecords (records : List RawRecord) : Option (List Int) :=
  calendarOf (sortedRowsOf records)

/-- The merged (calendar-reindexed) rows of `clean_and_process_data` for a
given calendar. -/
def mergedOf (records : List RawRecord) (cal : List Int) : List MRow :=
  mergeLeft cal (sortedRowsOf records)

/-- `BMRSDataProcessor.clean_and_process_data`: coerce the numeric columns,
sort by timestamp, build the 30-minute calendar, reindex, interpolate
(limit 2), derive `prices_df`/`volumes_df` with quality flags.  Any failure
inside the `try` block (in this model, the `pd.date_range` failure when no
timestamp is available) is re-raised as a single `BMRSError`. -/
def clean_and_process_data (records : List RawRecord) :
    Except BMRSError (PricesDF × VolumesDF) :=
  match calendarOfRecords records with
  | none =>
      .error ⟨"Error processing data: Neither `start` nor `end` can be NaT"⟩
  | some cal => .ok (buildFrames cal (sortedRowsOf records))

/-- Extract the returned pair from a successful `clean_and_process_data`
call (empty frames on the error path; used only to state concrete
instances). -/
def okFrames (e : Except BMRSError (PricesDF × VolumesDF)) : PricesDF × VolumesDF :=
  match e with
  | .ok pv => pv
  | .error _ => (⟨[], [], [], [], [], [], []⟩, ⟨[], [], [], []⟩)

/-- A store of raw dataframes, modelling which dataframe object each Python
name refers to; `clean_and_process_data` receives an index into the store
(the caller's dataframe object). -/
abbrev Heap := List (List RawRecord)

/-- A coerced cell written back into a raw column by the in-place assignment
`df[col] = pd.to_numeric(df[col], errors='coerce')`. -/
def rawOfCoerced (o : Option ℚ) : RawValue :=
  match o with
  | some q => .num q
  | none => .null

/-- In-place coercion of the `systemSellPrice` column of a stored frame. -/
def coerceSellCol (df : List RawRecord) : List RawRecord :=
  df.map fun r => { r with systemSellPrice := rawOfCoerced (to_numeric r.systemSellPrice) }

/-- In-place coercion of the `systemBuyPrice` column of a stored frame. -/
def coerceBuyCol (df : List RawRecord) : List RawRecord :=
  df.map fun r => { r with systemBuyPrice := rawOfCoerced (to_numeric r.systemBuyPrice) }

/-- In-place coercion of the `netImbalanceVolume` column of a stored frame. -/
def coerceVolCol (df : List RawRecord) : List RawRecord :=
  df.map fun r => { r with netImbalanceVolume := rawOfCoerced (to_numeric r.netImbalanceVolume) }

/-- Store-level model of `clean_and_process_data`, making the object
mutations of the source explicit: `df = df.copy()` allocates a fresh cell
holding a copy of the caller's frame; the three
`df[col] = pd.to_numeric(...)` assignments mutate that fresh cell in place;
every later step (`sort_values`, `pd.merge`, `astype`, `interpolate`, frame
construction) returns a new object, so the remaining pipeline is the pure
tail.  Returns the final store and the result. -/
def clean_and_process_data_heap (h : Heap) (r : Nat) :
    Heap × Except BMRSError (PricesDF × VolumesDF) :=
  let c := h.length
  let h1 := h ++ [h.getD r []]
  let h2 := h1.set c (coerceSellCol (h1.getD c []))
  let h3 := h2.set c (coerceBuyCol (h2.getD c []))
  let h4 := h3.set c (coerceVolCol (h3.getD c []))
  let rows := sortRows ((h4.getD c []).map coerceRecord)
  (h4,
    match calendarOf rows with
    | none =>
        .error ⟨"Error processing data: Neither `start` nor `end` can be NaT"⟩
    | some cal => .ok (buildFrames cal rows))

/-- Input with one anomalous row: sell price 110, buy price 100 (spread
`-10`), nothing missing. -/
def recordsC1 : List RawRecord :=
  [⟨some 0, .num 110, .num 100, .num 1⟩]

/-- Input covering two contiguous calendar slots with complete values. -/
def recordsC2 : List RawRecord :=
  [⟨some 0, .num 1, .num 2, .num 3⟩, ⟨some 30, .num 1, .num 2, .num 3⟩]

/-- Input whose calendar is `[0, 30, 60, 90, 120]` with the three interior
slots absent: each numeric column has an interior missing run of length 3. -/
def recordsGap3 : List RawRecord :=
  [⟨some 0, .num 0, .num 8, .num 1⟩, ⟨some 120, .num 120, .num 8, .num 1⟩]

/-- Input whose calendar is `[0, 30, 60, 90]` with the two interior slots
absent: each numeric column has an interior missing run of length 2. -/
def recordsGap2 : List RawRecord :=
  [⟨some 0, .num 10, .num 10, .num 1⟩, ⟨some 90, .num 40, .num 40, .num 4⟩]

/-- Input whose numeric values are present at slot 0 and null at the final
slot 60, leaving a trailing edge gap in every numeric column. -/
def recordsTrail : List RawRecord :=
  [⟨some 0, .num 5, .num 5, .num 5⟩, ⟨some 60, .null, .null, .null⟩]

/-- Input whose numeric values are null at slot 0 and present at the final
slot 60, leaving a leading edge gap in every numeric column. -/
def recordsLead : List RawRecord :=
  [⟨some 0, .null, .null, .null⟩, ⟨some 60, .num 7, .num 9, .num 5⟩]

/-- A 96-row price frame of which exactly 3 rows are flagged `Missing`. -/
def prices96 : PricesDF :=
  ⟨(List.range 96).map Int.ofNat, [], [], [], [], [],
    List.replicate 3 "Missing" ++ List.replicate 93 "Good"⟩

/-- A one-row volume frame with a `Good` row. -/
def volumes1 : VolumesDF := ⟨[0], [some 1], [some 1], ["Good"]⟩

/-- Summary entry for the price series produced by
`get_data_quality_summary`. -/
structure PricesSummary where
  total_periods : Nat
  missing_periods : Nat
  interpolated_periods : Nat
  anomalies : Nat
  missing_periods_pct : ℚ
  interpolated_periods_pct : ℚ
  anomalies_pct : ℚ
deriving DecidableEq, Repr

/-- Summary entry for the volume series produced by
`get_data_quality_summary`. -/
structure VolumesSummary where
  total_periods : Nat
  missing_periods : Nat
  interpolated_periods : Nat
  missing_periods_pct : ℚ
  interpolated_periods_pct : ℚ
deriving DecidableEq, Repr

/-- The dictionary returned by `get_data_quality_summary`. -/
structure QualitySummary where
  prices : PricesSummary
  volumes : VolumesSummary
deriving DecidableEq, Repr

/-- `BMRSDataProcessor.get_data_quality_summary`: per-series counts and,
for every count key after `total_periods`, the percentage
`count / total * 100` (float division modelled in ℚ; on a zero total the
Python division yields a non-number, which no claim depends on). -/
def get_data_quality_summary (prices_df : PricesDF) (volumes_df : VolumesDF) :
    QualitySummary :=
  let pTotal := prices_df.timestamp.length
  let pMissing := prices_df.price_quality.count "Missing"
  let pInterp := prices_df.price_quality.count "Interpolated"
  let pAnom := prices_df.price_quality.count "Anomaly"
  let vTotal := volumes_df.timestamp.length
  let vMissing := volumes_df.volume_quality.count "Missing"
  let vInterp := volumes_df.volume_quality.count "Interpolated"
  { prices :=
      { total_periods := pTotal
        missing_periods := pMissing
        interpolated_periods := pInterp
        anomalies := pAnom
        missing_periods_pct := (pMissing : ℚ) / (pTotal : ℚ) * 100
        interpolated_periods_pct := (pInterp : ℚ) / (pTotal : ℚ) * 100
        anomalies_pct := (pAnom : ℚ) / (pTotal : ℚ) * 100 }
    volumes :=
      { total_periods := vTotal
        missing_periods := vMissing
        interpolated_periods := vInterp
        missing_periods_pct := (vMissing : ℚ) / (vTotal : ℚ) * 100
        interpolated_periods_pct := (vInterp : ℚ) / (vTotal : ℚ) * 100 } }

/-! ### General helper lemmas about list indexing -/

theorem getD_range_map {β : Type} (f : Nat → β) (n i : Nat) (d : β) (hi : i < n) :
    ((List.range n).map f).getD i d = f i := by
  rw [List.getD_eq_getElem?_getD, List.getElem?_map, List.getElem?_range hi]
  rfl

theorem getD_map {α β : Type} (f : α → β) (l : List α) (i : Nat) (d : α) (dd : β)
    (hi : i < l.length) :
    (l.map f).getD i dd = f (l.getD i d) := by
  rw [List.getD_eq_getElem?_getD, List.getElem?_map, List.getElem?_eq_getElem hi,
    List.getD_eq_getElem l d hi]
  rfl

theorem getD_zipWith {α β γ : Type} (f : α → β → γ) :
    ∀ (l₁ : List α) (l₂ : List β) (i : Nat) (d₁ : α) (d₂ : β) (d : γ),
      i < l₁.length → i < l₂.length →
      (List.zipWith f l₁ l₂).getD i d = f (l₁.getD i d₁) (l₂.getD i d₂) := by
  intro l₁
  induction l₁ with
  | nil => intro l₂ i d₁ d₂ d h₁ h₂; simp at h₁
  | cons a l₁ ih =>
    intro l₂ i d₁ d₂ d h₁ h₂
    cases l₂ with
    | nil => simp at h₂
    | cons b l₂ =>
      cases i with
      | zero => rfl
      | succ i =>
        simp only [List.zipWith_cons_cons, List.getD_cons_succ]
        exact ih l₂ i d₁ d₂ d (by simpa using h₁) (by simpa using h₂)

theorem getD_oob {α : Type} (l : List α) (m : Nat) (d : α) (h : l.length ≤ m) :
    l.getD m d = d := by
  rw [List.getD_eq_getElem?_getD, List.getElem?_eq_none h]
  rfl

theorem set_getD_self (l : List (List RawRecord)) (i : Nat) (x : List RawRecord)
    (hi : i < l.length) : (l.set i x).getD i [] = x := by
  rw [List.getD_eq_getElem?_getD, List.getElem?_set_self hi]
  rfl

/-! ### Lemmas about the interpolation step -/

theorem interpCol_length (lim : Nat) (ys : List (Option ℚ)) :
    (interpCol lim ys).length = ys.length := by
  simp [interpCol]

theorem interpCol_getD (lim : Nat) (ys : List (Option ℚ)) (i : Nat) (hi : i < ys.length) :
    (interpCol lim ys).getD i none = interpAt lim ys i :=
  getD_range_map _ _ _ _ hi

theorem interpAt_of_valid (lim : Nat) (ys : List (Option ℚ)) (i : Nat) (v : ℚ)
    (h : ys.getD i none = some v) : interpAt lim ys i = some v := by
  unfold interpAt
  rw [h]

theorem interpAt_of_lead (lim : Nat) (ys : List (Option ℚ)) (i : Nat)
    (h : ys.getD i none = none) (hp : prevValidIdx ys i = none) :
    interpAt lim ys i = none := by
  unfold interpAt
  rw [h, hp]

theorem interpAt_of_far (lim : Nat) (ys : List (Option ℚ)) (i a : Nat)
    (h : ys.getD i none = none) (hp : prevValidIdx ys i = some a)
    (hfar : lim < i - a) : interpAt lim ys i = none := by
  unfold interpAt
  rw [h, hp]
  simp [hfar]

theorem interpAt_of_interior (lim : Nat) (ys : List (Option ℚ)) (i a b : Nat)
    (h : ys.getD i none = none) (hp : prevValidIdx ys i = some a)
    (hnear : ¬ lim < i - a) (hn : nextValidIdx ys i = some b) :
    interpAt lim ys i =
      some (valAt ys a +
        (valAt ys b - valAt ys a) * (((i : ℚ) - (a : ℚ)) / ((b : ℚ) - (a : ℚ)))) := by
  unfold interpAt
  rw [h, hp]
  simp [hnear, hn]

theorem interpAt_of_clamp (lim : Nat) (ys : List (Option ℚ)) (i a : Nat)
    (h : ys.getD i none = none) (hp : prevValidIdx ys i = some a)
    (hnear : ¬ lim < i - a) (hn : nextValidIdx ys i = none) :
    interpAt lim ys i = some (valAt ys a) := by
  unfold interpAt
  rw [h, hp]
  simp [hnear, hn]

theorem prevValidIdx_succ_valid (ys : List (Option ℚ)) (i : Nat)
    (h : isValidAt ys i = true) : prevValidIdx ys (i + 1) = some i := by
  unfold prevValidIdx
  rw [List.range_succ, List.filter_append]
  simp [List.filter, h]

theorem prevValidIdx_succ_invalid (ys : List (Option ℚ)) (i : Nat)
    (h : isValidAt ys i = false) : prevValidIdx ys (i + 1) = prevValidIdx ys i := by
  unfold prevValidIdx
  rw [List.range_succ, List.filter_append]
  simp [List.filter, h]

theorem prevValidIdx_gap (ys : List (Option ℚ)) (a : Nat) :
    ∀ j : Nat, isValidAt ys a = true → a < j →
      (∀ m, a < m → m < j → isValidAt ys m = false) →
      prevValidIdx ys j = some a := by
  intro j
  induction j with
  | zero => intro _ haj _; omega
  | succ n ih =>
    intro ha haj hmid
    rcases Nat.lt_or_ge a n with h | h
    · rw [prevValidIdx_succ_invalid ys n (hmid n h (Nat.lt_succ_self n))]
      exact ih ha h (fun m hm1 hm2 => hmid m hm1 (Nat.lt_succ_of_lt hm2))
    · have : a = n := by omega
      subst this
      exact prevValidIdx_succ_valid ys a ha

theorem prevValidIdx_eq_none (ys : List (Option ℚ)) (j : Nat)
    (h : ∀ m, m < j → isValidAt ys m = false) : prevValidIdx ys j = none := by
  unfold prevValidIdx
  have : (List.range j).filter (isValidAt ys) = [] := by
    apply List.filter_eq_nil_iff.mpr
    intro a ha
    rw [List.mem_range] at ha
    simp [h a ha]
  rw [this]
  rfl

theorem head_filter_range (q : Nat → Bool) (m : Nat) :
    ∀ n : Nat, m < n → q m = true → (∀ k, k < m → q k = false) →
      ((List.range n).filter q).head? = some m := by
  intro n
  induction n with
  | zero => intro h; omega
  | succ n ih =>
    intro hm hq hmin
    rw [List.range_succ, List.filter_append]
    rcases Nat.lt_or_ge m n with h | h
    · rw [List.head?_append, ih h hq hmin]
      rfl
    · have hmn : m = n := by omega
      subst hmn
      have : (List.range m).filter q = [] := by
        apply List.filter_eq_nil_iff.mpr
        intro a ha
        rw [List.mem_range] at ha
        simp [hmin a ha]
      rw [this]
      simp [List.filter, hq]

theorem nextValidIdx_eq_some (ys : List (Option ℚ)) (i b : Nat)
    (hb : b < ys.length) (hib : i < b) (hv : isValidAt ys b = true)
    (hmid : ∀ m, i < m → m < b → isValidAt ys m = false) :
    nextValidIdx ys i = some b := by
  unfold nextValidIdx
  apply head_filter_range _ b ys.length hb (by simp [hib, hv])
  intro k hk
  by_cases hik : i < k
  · simp [hik, hmid k hik hk]
  · simp [hik]

theorem nextValidIdx_eq_none (ys : List (Option ℚ)) (i : Nat)
    (h : ∀ m, i < m → m < ys.length → isValidAt ys m = false) :
    nextValidIdx ys i = none := by
  unfold nextValidIdx
  have : (List.range ys.length).filter
      (fun j => decide (i < j) && isValidAt ys j) = [] := by
    apply List.filter_eq_nil_iff.mpr
    intro a ha
    rw [List.mem_range] at ha
    by_cases hia : i < a
    · simp [hia, h a hia ha]
    · simp [hia]
  rw [this]
  rfl

/-! ### Lemmas about the quality-flag computations -/

theorem price_flag_length (df : PricesDF) :
    (_get_price_quality_flag df).length =
      min df.system_sell_price.length df.system_buy_price.length := by
  simp [_get_price_quality_flag, List.length_zipWith]

theorem price_flag_getD (df : PricesDF) (i : Nat)
    (h1 : i < df.system_sell_price.length) (h2 : i < df.system_buy_price.length)
    (h3 : i < df.is_interpolated_sell.length) (h4 : i < df.is_interpolated_buy.length)
    (h5 : i < df.price_spread.length) :
    (_get_price_quality_flag df).getD i "" =
      if ((df.system_sell_price.getD i none).isNone
          || (df.system_buy_price.getD i none).isNone) then "Missing"
      else if (df.is_interpolated_sell.getD i false
          || df.is_interpolated_buy.getD i false) then "Interpolated"
      else if negSpread (df.price_spread.getD i none) then "Anomaly"
      else "Good" := by
  have hc1 : i < (List.zipWith or (df.system_sell_price.map Option.isNone)
      (df.system_buy_price.map Option.isNone)).length := by
    simp [List.length_zipWith]
    omega
  simp only [_get_price_quality_flag]
  rw [getD_range_map _ _ _ _ hc1]
  rw [getD_zipWith or _ _ i false false false (by simpa using h1) (by simpa using h2)]
  rw [getD_zipWith or _ _ i false false false h3 h4]
  rw [getD_map Option.isNone _ i none false h1, getD_map Option.isNone _ i none false h2]
  rw [getD_map negSpread _ i none false h5]

theorem volume_flag_getD (df : VolumesDF) (i : Nat)
    (h1 : i < df.net_imbalance_volume.length) :
    (_get_volume_quality_flag df).getD i "" =
      if (df.net_imbalance_volume.getD i none).isNone then "Missing" else "Good" := by
  simp only [_get_volume_quality_flag]
  rw [getD_range_map _ _ _ _ (by simpa using h1)]
  rw [getD_zipWith and _ _ i false false false (by simpa using h1) (by simpa using h1)]
  rw [getD_map Option.isNone _ i none false h1, getD_map Option.isSome _ i none false h1]
  rcases df.net_imbalance_volume.getD i none with _ | q
  · rfl
  · rfl

theorem volume_flag_not_interpolated (df : VolumesDF) :
    "Interpolated" ∉ _get_volume_quality_flag df := by
  intro hmem
  simp only [_get_volume_quality_flag] at hmem
  rw [List.mem_map] at hmem
  obtain ⟨i, hi, hbody⟩ := hmem
  rw [List.mem_range] at hi
  have h1 : i < df.net_imbalance_volume.length := by simpa using hi
  rw [getD_zipWith and _ _ i false false false (by simpa using h1) (by simpa using h1)]
    at hbody
  rw [getD_map Option.isNone _ i none false h1, getD_map Option.isSome _ i none false h1]
    at hbody
  cases hx : df.net_imbalance_volume.getD i none with
  | none => rw [hx] at hbody; simp at hbody
  | some q => rw [hx] at hbody; simp at hbody

/-! ### Lemmas about `buildFrames` -/

theorem buildFrames_fst_timestamp (cal : List Int) (rows : List Row) :
    ((buildFrames cal rows).1).timestamp = (mergeLeft cal rows).map (·.timestamp) := rfl

theorem buildFrames_fst_sell (cal : List Int) (rows : List Row) :
    ((buildFrames cal rows).1).system_sell_price =
      interpCol 2 ((mergeLeft cal rows).map (·.systemSellPrice)) := rfl

theorem buildFrames_fst_buy (cal : List Int) (rows : List Row) :
    ((buildFrames cal rows).1).system_buy_price =
      interpCol 2 ((mergeLeft cal rows).map (·.systemBuyPrice)) := rfl

theorem buildFrames_fst_spread (cal : List Int) (rows : List Row) :
    ((buildFrames cal rows).1).price_spread =
      List.zipWith optSub (interpCol 2 ((mergeLeft cal rows).map (·.systemBuyPrice)))
        (interpCol 2 ((mergeLeft cal rows).map (·.systemSellPrice))) := rfl

theorem buildFrames_fst_maskSell (cal : List Int) (rows : List Row) :
    ((buildFrames cal rows).1).is_interpolated_sell =
      (mergeLeft cal rows).map (fun m => m.systemSellPrice.isNone) := rfl

theorem buildFrames_fst_maskBuy (cal : List Int) (rows : List Row) :
    ((buildFrames cal rows).1).is_interpolated_buy =
      (mergeLeft cal rows).map (fun m => m.systemBuyPrice.isNone) := rfl

theorem buildFrames_fst_quality (cal : List Int) (rows : List Row) :
    ((buildFrames cal rows).1).price_quality =
      _get_price_quality_flag (buildFrames cal rows).1 := rfl

theorem buildFrames_snd_timestamp (cal : List Int) (rows : List Row) :
    ((buildFrames cal rows).2).timestamp = (mergeLeft cal rows).map (·.timestamp) := rfl

theorem buildFrames_snd_vol (cal : List Int) (rows : List Row) :
    ((buildFrames cal rows).2).net_imbalance_volume =
      interpCol 2 ((mergeLeft cal rows).map (·.netImbalanceVolume)) := rfl

theorem buildFrames_snd_abs (cal : List Int) (rows : List Row) :
    ((buildFrames cal rows).2).abs_imbalance_volume =
      (interpCol 2 ((mergeLeft cal rows).map (·.netImbalanceVolume))).map
        (Option.map (fun q => |q|)) := rfl

theorem buildFrames_snd_quality (cal : List Int) (rows : List Row) :
    ((buildFrames cal rows).2).volume_quality =
      _get_volume_quality_flag (buildFrames cal rows).2 := rfl

theorem buildFrames_lengths (cal : List Int) (rows : List Row) :
    ((buildFrames cal rows).1.timestamp.length = (mergeLeft cal rows).length ∧
     (buildFrames cal rows).1.system_sell_price.length = (mergeLeft cal rows).length ∧
     (buildFrames cal rows).1.system_buy_price.length = (mergeLeft cal rows).length ∧
     (buildFrames cal rows).1.price_spread.length = (mergeLeft cal rows).length ∧
     (buildFrames cal rows).1.is_interpolated_sell.length = (mergeLeft cal rows).length ∧
     (buildFrames cal rows).1.is_interpolated_buy.length = (mergeLeft cal rows).length ∧
     (buildFrames cal rows).1.price_quality.length = (mergeLeft cal rows).length) ∧
    ((buildFrames cal rows).2.timestamp.length = (mergeLeft cal rows).length ∧
     (buildFrames cal rows).2.net_imbalance_volume.length = (mergeLeft cal rows).length ∧
     (buildFrames cal rows).2.abs_imbalance_volume.length = (mergeLeft cal rows).length ∧
     (buildFrames cal rows).2.volume_quality.length = (mergeLeft cal rows).length) := by
  refine ⟨⟨?_, ?_, ?_, ?_, ?_, ?_, ?_⟩, ?_, ?_, ?_, ?_⟩ <;>
    simp [buildFrames, _get_price_quality_flag, _get_volume_quality_flag,
      interpCol, List.length_zipWith]

/-! ### Lemmas about the left-join reindex -/

theorem mergeLeft_cons (t : Int) (cal : List Int) (rows : List Row) :
    mergeLeft (t :: cal) rows = mergeGroup rows t ++ mergeLeft cal rows := by
  unfold mergeLeft
  rw [List.flatMap_cons]

theorem mergeGroup_length (rows : List Row) (t : Int)
    (h : rows.countP (fun r => r.timestamp == some t) ≤ 1) :
    (mergeGroup rows t).length = 1 := by
  unfold mergeGroup
  cases hf : rows.filter (fun r => r.timestamp == some t) with
  | nil => rfl
  | cons r rs =>
    have hlen : (r :: rs).length ≤ 1 := by
      rw [← hf, ← List.countP_eq_length_filter]
      exact h
    cases rs with
    | nil => rfl
    | cons a l => simp at hlen

theorem mergeGroup_timestamps (rows : List Row) (t : Int)
    (h : rows.countP (fun r => r.timestamp == some t) ≤ 1) :
    (mergeGroup rows t).map (·.timestamp) = [t] := by
  unfold mergeGroup
  cases hf : rows.filter (fun r => r.timestamp == some t) with
  | nil => rfl
  | cons r rs =>
    have hlen : (r :: rs).length ≤ 1 := by
      rw [← hf, ← List.countP_eq_length_filter]
      exact h
    cases rs with
    | nil => rfl
    | cons a l => simp at hlen

theorem mergeLeft_length (cal : List Int) (rows : List Row)
    (h : ∀ t : Int, rows.countP (fun r => r.timestamp == some t) ≤ 1) :
    (mergeLeft cal rows).length = cal.length := by
  induction cal with
  | nil => rfl
  | cons t cal ih =>
    rw [mergeLeft_cons, List.length_append, mergeGroup_length rows t (h t), ih,
      List.length_cons]
    omega

theorem mergeLeft_timestamps (cal : List Int) (rows : List Row)
    (h : ∀ t : Int, rows.countP (fun r => r.timestamp == some t) ≤ 1) :
    (mergeLeft cal rows).map (·.timestamp) = cal := by
  induction cal with
  | nil => rfl
  | cons t cal ih =>
    rw [mergeLeft_cons, List.map_append, mergeGroup_timestamps rows t (h t), ih]
    rfl

/-! ### Counting lemmas used for the uniqueness hypothesis -/

theorem count_filterMap_timestamp (l : List RawRecord) (t : Int) :
    (l.filterMap RawRecord.timestamp).count t =
      l.countP (fun r => r.timestamp == some t) := by
  induction l with
  | nil => rfl
  | cons r l ih =>
    cases hr : r.timestamp with
    | none =>
      rw [List.filterMap_cons, hr, List.countP_cons]
      simp [hr, ih]
    | some s =>
      rw [List.filterMap_cons, hr, List.countP_cons, List.count_cons]
      simp [hr, ih, beq_iff_eq, Option.some.injEq]

theorem countP_sortedRowsOf (records : List RawRecord) (t : Int)
    (hnd : (records.filterMap RawRecord.timestamp).Nodup) :
    (sortedRowsOf records).countP (fun r => r.timestamp == some t) ≤ 1 := by
  unfold sortedRowsOf sortRows
  rw [List.Perm.countP_eq _
    (List.perm_insertionSort (fun a b => rowLe a b = true) (records.map coerceRecord))]
  rw [List.countP_map]
  rw [show ((fun r : Row => r.timestamp == some t) ∘ coerceRecord)
      = (fun r : RawRecord => r.timestamp == some t) from rfl]
  rw [← count_filterMap_timestamp]
  exact List.nodup_iff_count_le_one.mp hnd t

/-! ### Plumbing for `clean_and_process_data` -/

theorem clean_ok_elim (records : List RawRecord) (p : PricesDF) (v : VolumesDF)
    (hok : clean_and_process_data records = .ok (p, v)) :
    ∃ cal, calendarOfRecords records = some cal ∧
      p = (buildFrames cal (sortedRowsOf records)).1 ∧
      v = (buildFrames cal (sortedRowsOf records)).2 := by
  unfold clean_and_process_data at hok
  cases hcal : calendarOfRecords records with
  | none =>
    rw [hcal] at hok
    exact absurd hok (by simp)
  | some cal =>
    rw [hcal] at hok
    simp only [Except.ok.injEq] at hok
    exact ⟨cal, rfl, by rw [hok], by rw [hok]⟩

/-! ### Shared helper lemmas about filled cells and quality rows -/

theorem interpCol_getD_oob (lim : Nat) (ys : List (Option ℚ)) (i : Nat)
    (hi : ys.length ≤ i) : (interpCol lim ys).getD i none = none := by
  rw [List.getD_eq_getElem?_getD, List.getElem?_eq_none (by simpa [interpCol] using hi)]
  rfl

theorem isValidAt_false_of_getD (ys : List (Option ℚ)) (m : Nat)
    (h : ys.getD m none = none) : isValidAt ys m = false := by
  unfold isValidAt
  rw [h]
  rfl

theorem isValidAt_true_of_getD (ys : List (Option ℚ)) (m : Nat) (v : ℚ)
    (h : ys.getD m none = some v) : isValidAt ys m = true := by
  unfold isValidAt
  rw [h]
  rfl

/-- A null cell strictly more than `2` slots after the previous value stays
null after `interpolate(limit=2)`. -/
theorem interp_none_far (ys : List (Option ℚ)) (a j : Nat) (va : ℚ) (hj : 3 ≤ j)
    (ha : ys.getD a none = some va)
    (hmid : ∀ m, a < m → m ≤ a + j → ys.getD m none = none) :
    (interpCol 2 ys).getD (a + j) none = none := by
  rcases Nat.lt_or_ge (a + j) ys.length with hlen | hlen
  · rw [interpCol_getD 2 ys _ hlen]
    have hcur : ys.getD (a + j) none = none := hmid (a + j) (by omega) (le_refl _)
    have hprev : prevValidIdx ys (a + j) = some a :=
      prevValidIdx_gap ys a (a + j) (isValidAt_true_of_getD ys a va ha) (by omega)
        (fun m h1 h2 => isValidAt_false_of_getD ys m (hmid m h1 (by omega)))
    exact interpAt_of_far 2 ys (a + j) a hcur hprev (by omega)
  · exact interpCol_getD_oob 2 ys _ hlen

/-- A null cell at most `2` slots after the previous value is filled (with
some value) after `interpolate(limit=2)`. -/
theorem interp_some_near (ys : List (Option ℚ)) (a j : Nat) (va : ℚ)
    (h1 : 1 ≤ j) (h2 : j ≤ 2) (ha : ys.getD a none = some va)
    (hmid : ∀ m, a < m → m ≤ a + j → ys.getD m none = none)
    (hlen : a + j < ys.length) :
    ((interpCol 2 ys).getD (a + j) none).isSome = true := by
  rw [interpCol_getD 2 ys _ hlen]
  have hcur : ys.getD (a + j) none = none := hmid (a + j) (by omega) (le_refl _)
  have hprev : prevValidIdx ys (a + j) = some a :=
    prevValidIdx_gap ys a (a + j) (isValidAt_true_of_getD ys a va ha) (by omega)
      (fun m hm1 hm2 => isValidAt_false_of_getD ys m (hmid m hm1 (by omega)))
  cases hn : nextValidIdx ys (a + j) with
  | none => rw [interpAt_of_clamp 2 ys _ a hcur hprev (by omega) hn]; rfl
  | some b => rw [interpAt_of_interior 2 ys _ a b hcur hprev (by omega) hn]; rfl

/-- Interior fill value: a null cell `j ≤ 2` slots after value `va` at `a`,
with the next value `vb` at `b`, gets the `np.interp` linear value. -/
theorem interp_interior_value (ys : List (Option ℚ)) (a b j : Nat) (va vb : ℚ)
    (hj1 : 1 ≤ j) (hj2 : j ≤ 2) (hab : a + j < b)
    (ha : ys.getD a none = some va) (hb : ys.getD b none = some vb)
    (hblen : b < ys.length)
    (hmid : ∀ m, a < m → m < b → ys.getD m none = none) :
    (interpCol 2 ys).getD (a + j) none =
      some (va + (vb - va) * ((((a + j : Nat) : ℚ) - (a : ℚ)) / (((b : Nat) : ℚ) - (a : ℚ)))) := by
  have hlen : a + j < ys.length := lt_trans hab hblen
  rw [interpCol_getD 2 ys _ hlen]
  have hcur : ys.getD (a + j) none = none := hmid (a + j) (by omega) hab
  have hprev : prevValidIdx ys (a + j) = some a :=
    prevValidIdx_gap ys a (a + j) (isValidAt_true_of_getD ys a va ha) (by omega)
      (fun m hm1 hm2 => isValidAt_false_of_getD ys m (hmid m hm1 (by omega)))
  have hnext : nextValidIdx ys (a + j) = some b :=
    nextValidIdx_eq_some ys (a + j) b hblen (by omega)
      (isValidAt_true_of_getD ys b vb hb)
      (fun m hm1 hm2 => isValidAt_false_of_getD ys m (hmid m (by omega) hm2))
  rw [interpAt_of_interior 2 ys (a + j) a b hcur hprev (by omega) hnext]
  unfold valAt
  rw [ha, hb]
  rfl

/-- Trailing clamp: a null cell `j ≤ 2` slots after the last value `va` at
`a`, with no value anywhere after `a`, is filled with `va` itself. -/
theorem interp_clamp_value (ys : List (Option ℚ)) (a j : Nat) (va : ℚ)
    (h1 : 1 ≤ j) (h2 : j ≤ 2) (ha : ys.getD a none = some va)
    (hafter : ∀ m, a < m → m < ys.length → ys.getD m none = none)
    (hlen : a + j < ys.length) :
    (interpCol 2 ys).getD (a + j) none = some va := by
  rw [interpCol_getD 2 ys _ hlen]
  have hcur : ys.getD (a + j) none = none := hafter (a + j) (by omega) hlen
  have hprev : prevValidIdx ys (a + j) = some a :=
    prevValidIdx_gap ys a (a + j) (isValidAt_true_of_getD ys a va ha) (by omega)
      (fun m hm1 hm2 => isValidAt_false_of_getD ys m (hafter m hm1 (by omega)))
  have hnext : nextValidIdx ys (a + j) = none :=
    nextValidIdx_eq_none ys (a + j)
      (fun m hm1 hm2 => isValidAt_false_of_getD ys m (hafter m (by omega) hm2))
  rw [interpAt_of_clamp 2 ys _ a hcur hprev (by omega) hnext]
  unfold valAt
  rw [ha]
  rfl

/-- Leading gap: a null cell with no value anywhere before it stays null. -/
theorem interp_none_lead (ys : List (Option ℚ)) (i : Nat)
    (h : ∀ m, m ≤ i → ys.getD m none = none) :
    (interpCol 2 ys).getD i none = none := by
  rcases Nat.lt_or_ge i ys.length with hlen | hlen
  · rw [interpCol_getD 2 ys _ hlen]
    exact interpAt_of_lead 2 ys i (h i (le_refl _))
      (prevValidIdx_eq_none ys i
        (fun m hm => isValidAt_false_of_getD ys m (h m (by omega))))
  · exact interpCol_getD_oob 2 ys _ hlen

/-- The per-row reading of `_get_price_quality_flag` on the output of
`clean_and_process_data`. -/
theorem price_quality_rule (records : List RawRecord)
    (p : PricesDF) (v : VolumesDF)
    (hok : clean_and_process_data records = .ok (p, v))
    (i : Nat) (hi : i < p.price_quality.length) :
    p.price_quality.getD i "" =
      if ((p.system_sell_price.getD i none).isNone
          || (p.system_buy_price.getD i none).isNone) then "Missing"
      else if (p.is_interpolated_sell.getD i false
          || p.is_interpolated_buy.getD i false) then "Interpolated"
      else if negSpread (p.price_spread.getD i none) then "Anomaly"
      else "Good" := by
  obtain ⟨cal, hcal, hp, hv⟩ := clean_ok_elim records p v hok
  subst hp
  obtain ⟨⟨hts, hsell, hbuy, hspread, hms, hmb, hq⟩, _⟩ :=
    buildFrames_lengths cal (sortedRowsOf records)
  have hn : i < (mergeLeft cal (sortedRowsOf records)).length := by
    rw [← hq]
    exact hi
  rw [buildFrames_fst_quality]
  rw [price_flag_getD _ i (by rw [hsell]; exact hn) (by rw [hbuy]; exact hn)
    (by rw [hms]; exact hn) (by rw [hmb]; exact hn) (by rw [hspread]; exact hn)]

/-! ### Claim C1 -/

/-- Claim C1: every price row's `price_quality` is assigned by first-match-wins
precedence: `Missing` when the sell or buy price is still null after fill,
otherwise `Interpolated` when either pre-fill interpolation mask is set,
otherwise `Anomaly` when the price spread is negative, otherwise `Good`. -/
theorem C1_price_quality_precedence (records : List RawRecord)
    (p : PricesDF) (v : VolumesDF)
    (hok : clean_and_process_data records = .ok (p, v))
    (i : Nat) (hi : i < p.price_quality.length) :
    p.price_quality.getD i "" =
      if ((p.system_sell_price.getD i none).isNone
          || (p.system_buy_price.getD i none).isNone) then "Missing"
      else if (p.is_interpolated_sell.getD i false
          || p.is_interpolated_buy.getD i false) then "Interpolated"
      else if negSpread (p.price_spread.getD i none) then "Anomaly"
      else "Good" :=
  price_quality_rule records p v hok i hi

/-- Witness for C1: a concrete row with sell price 110 and buy price 100
(spread −10), nothing missing or interpolated, comes out `Anomaly`. -/
theorem C1_witness :
    (okFrames (clean_and_process_data recordsC1)).1.price_quality.getD 0 "" =
      "Anomaly" := by
  have hok : clean_and_process_data recordsC1 =
      .ok ((okFrames (clean_and_process_data recordsC1)).1,
        (okFrames (clean_and_process_data recordsC1)).2) := rfl
  rw [C1_price_quality_precedence recordsC1 _ _ hok 0 (by decide)]
  with_unfolding_all decide

/-! ### Claim C2 -/

/-- Claim C2: for a valid non-empty batch (at least one parseable timestamp —
i.e. the calendar exists — and distinct record timestamps, one record per
settlement period), both output frames have exactly one row per calendar slot
and their timestamp columns equal the calendar, so price and volume rows are
timestamp-ordered and positionally aligned. -/
theorem C2_row_count_and_alignment (records : List RawRecord) (cal : List Int)
    (p : PricesDF) (v : VolumesDF)
    (hnd : (records.filterMap RawRecord.timestamp).Nodup)
    (hcal : calendarOfRecords records = some cal)
    (hok : clean_and_process_data records = .ok (p, v)) :
    p.timestamp = cal ∧ v.timestamp = cal ∧
    p.system_sell_price.length = cal.length ∧
    p.system_buy_price.length = cal.length ∧
    p.price_spread.length = cal.length ∧
    p.is_interpolated_sell.length = cal.length ∧
    p.is_interpolated_buy.length = cal.length ∧
    p.price_quality.length = cal.length ∧
    v.net_imbalance_volume.length = cal.length ∧
    v.abs_imbalance_volume.length = cal.length ∧
    v.volume_quality.length = cal.length := by
  obtain ⟨cal2, hcal2, hp, hv⟩ := clean_ok_elim records p v hok
  rw [hcal] at hcal2
  injection hcal2 with hc
  subst hc
  have hcnt : ∀ t : Int, (sortedRowsOf records).countP
      (fun r => r.timestamp == some t) ≤ 1 :=
    fun t => countP_sortedRowsOf records t hnd
  have hlen := mergeLeft_length cal (sortedRowsOf records) hcnt
  have htsm := mergeLeft_timestamps cal (sortedRowsOf records) hcnt
  subst hp
  subst hv
  obtain ⟨⟨l1, l2, l3, l4, l5, l6, l7⟩, l8, l9, l10, l11⟩ :=
    buildFrames_lengths cal (sortedRowsOf records)
  refine ⟨?_, ?_, ?_, ?_, ?_, ?_, ?_, ?_, ?_, ?_, ?_⟩
  · rw [buildFrames_fst_timestamp, htsm]
  · rw [buildFrames_snd_timestamp, htsm]
  all_goals omega

/-- Witness for C2: two records at timestamps 0 and 30 give frames whose
timestamp columns are exactly the calendar `[0, 30]` with two rows each. -/
theorem C2_witness :
    (okFrames (clean_and_process_data recordsC2)).1.timestamp = [0, 30] ∧
    (okFrames (clean_and_process_data recordsC2)).2.timestamp = [0, 30] ∧
    (okFrames (clean_and_process_data recordsC2)).1.price_quality.length = 2 := by
  have hok : clean_and_process_data recordsC2 =
      .ok ((okFrames (clean_and_process_data recordsC2)).1,
        (okFrames (clean_and_process_data recordsC2)).2) := by
    with_unfolding_all rfl
  have hcal : calendarOfRecords recordsC2 = some [0, 30] := by
    with_unfolding_all rfl
  have hnd : (recordsC2.filterMap RawRecord.timestamp).Nodup := by decide
  obtain ⟨a1, a2, a3, a4, a5, a6, a7, a8, a9, a10, a11⟩ :=
    C2_row_count_and_alignment recordsC2 [0, 30] _ _ hnd hcal hok
  refine ⟨a1, a2, ?_⟩
  rw [a8]
  rfl

/-! ### Claim C3 -/

/-- Counterexample to C3 as stated: `recordsGap3` leaves an interior missing
run of length 3 in the sell column (calendar `[0, 30, 60, 90, 120]` with only
slots 0 and 120 reported), yet the first slot of the run comes out filled
with `some 30` and flagged `Interpolated` instead of staying missing:
`interpolate(limit=2)` fills the first 2 cells of a longer run. -/
theorem C3_counterexample :
    calendarOfRecords recordsGap3 = some [0, 30, 60, 90, 120] ∧
    (mergedOf recordsGap3 [0, 30, 60, 90, 120]).map (·.systemSellPrice) =
      [some 0, none, none, none, some 120] ∧
    (okFrames (clean_and_process_data recordsGap3)).1.system_sell_price.getD 1 none =
      some 30 ∧
    (okFrames (clean_and_process_data recordsGap3)).1.price_quality.getD 1 "" =
      "Interpolated" := by
  refine ⟨?_, ?_, ?_, ?_⟩ <;> with_unfolding_all rfl

/-- Claim C3 (amended): an interior missing run of exactly 2 slots bounded by
values on both sides is fully interpolated with the linear values (and such a
row is flagged `Interpolated` when both price columns end up filled); in a
missing run of 3 or more slots after a value, the first 2 slots of the run
are filled while only the slots more than 2 past the bounding value stay
missing (null preserved, flagged `Missing`). -/
theorem C3_gap_cap_amended :
    (∀ (ys : List (Option ℚ)) (a : Nat) (va vb : ℚ),
      ys.getD a none = some va → ys.getD (a + 1) none = none →
      ys.getD (a + 2) none = none → ys.getD (a + 3) none = some vb →
      a + 3 < ys.length →
      (interpCol 2 ys).getD (a + 1) none = some (va + (vb - va) * (1 / 3)) ∧
      (interpCol 2 ys).getD (a + 2) none = some (va + (vb - va) * (2 / 3))) ∧
    (∀ (ys : List (Option ℚ)) (a k j : Nat) (va : ℚ),
      ys.getD a none = some va →
      (∀ m, a < m → m ≤ a + k → ys.getD m none = none) →
      3 ≤ j → j ≤ k →
      (interpCol 2 ys).getD (a + j) none = none) ∧
    (∀ (ys : List (Option ℚ)) (a k : Nat) (va : ℚ),
      ys.getD a none = some va →
      (∀ m, a < m → m ≤ a + k → ys.getD m none = none) →
      3 ≤ k → a + 2 < ys.length →
      ((interpCol 2 ys).getD (a + 1) none).isSome = true ∧
      ((interpCol 2 ys).getD (a + 2) none).isSome = true) ∧
    (∀ (records : List RawRecord) (p : PricesDF) (v : VolumesDF),
      clean_and_process_data records = .ok (p, v) →
      ∀ i : Nat, i < p.price_quality.length →
        p.is_interpolated_sell.getD i false = true →
        (p.system_sell_price.getD i none).isSome = true →
        (p.system_buy_price.getD i none).isSome = true →
        p.price_quality.getD i "" = "Interpolated") ∧
    (∀ (records : List RawRecord) (p : PricesDF) (v : VolumesDF),
      clean_and_process_data records = .ok (p, v) →
      ∀ i : Nat, i < p.price_quality.length →
        p.system_sell_price.getD i none = none →
        p.price_quality.getD i "" = "Missing") := by
  refine ⟨?_, ?_, ?_, ?_, ?_⟩
  · intro ys a va vb ha h1 h2 hb hlen
    have hmid : ∀ m, a < m → m < a + 3 → ys.getD m none = none := by
      intro m hm1 hm2
      have hm : m = a + 1 ∨ m = a + 2 := by omega
      rcases hm with hm | hm <;> subst hm <;> assumption
    constructor
    · have h := interp_interior_value ys a (a + 3) 1 va vb (le_refl 1) (by omega)
        (by omega) ha hb hlen hmid
      rw [h]
      congr 1
      have harith : (((a + 1 : Nat) : ℚ) - (a : ℚ)) / (((a + 3 : Nat) : ℚ) - (a : ℚ))
          = 1 / 3 := by
        push_cast
        ring_nf
      rw [harith]
    · have h := interp_interior_value ys a (a + 3) 2 va vb (by omega) (le_refl 2)
        (by omega) ha hb hlen hmid
      rw [h]
      congr 1
      have harith : (((a + 2 : Nat) : ℚ) - (a : ℚ)) / (((a + 3 : Nat) : ℚ) - (a : ℚ))
          = 2 / 3 := by
        push_cast
        ring_nf
      rw [harith]
  · intro ys a k j va ha hmid hj hjk
    exact interp_none_far ys a j va hj ha
      (fun m hm1 hm2 => hmid m hm1 (by omega))
  · intro ys a k va ha hmid hk hlen
    constructor
    · exact interp_some_near ys a 1 va (le_refl 1) (by omega) ha
        (fun m hm1 hm2 => hmid m hm1 (by omega)) (by omega)
    · exact interp_some_near ys a 2 va (by omega) (le_refl 2) ha
        (fun m hm1 hm2 => hmid m hm1 (by omega)) hlen
  · intro records p v hok i hi hmask hsell hbuy
    rw [price_quality_rule records p v hok i hi]
    obtain ⟨qs, hqs⟩ := Option.isSome_iff_exists.mp hsell
    obtain ⟨qb, hqb⟩ := Option.isSome_iff_exists.mp hbuy
    rw [hqs, hqb, hmask]
    rfl
  · intro records p v hok i hi hnull
    rw [price_quality_rule records p v hok i hi]
    rw [hnull]
    rfl

/-- Witness for the amended C3: the 2-run in `recordsGap2` fills to the linear
value 20 and is flagged `Interpolated`; in the 3-run input `recordsGap3` slot
3 of the column stays missing and its row is flagged `Missing`. -/
theorem C3_witness :
    (interpCol 2 [some 10, none, none, some 40]).getD 1 none = some 20 ∧
    (interpCol 2 [some 0, none, none, none, some 120]).getD 3 none = none ∧
    (okFrames (clean_and_process_data recordsGap2)).1.price_quality.getD 1 "" =
      "Interpolated" ∧
    (okFrames (clean_and_process_data recordsGap3)).1.price_quality.getD 3 "" =
      "Missing" := by
  obtain ⟨hA, hB, hB2, hC, hD⟩ := C3_gap_cap_amended
  refine ⟨?_, ?_, ?_, ?_⟩
  · have h := (hA [some 10, none, none, some 40] 0 10 40 rfl rfl rfl rfl
      (by decide)).1
    simp only [Nat.zero_add] at h
    rw [h]
    with_unfolding_all rfl
  · have h := hB [some 0, none, none, none, some 120] 0 3 3 0 rfl
      (by intro m hm1 hm2; interval_cases m <;> rfl) (le_refl 3) (le_refl 3)
    simpa using h
  · have hok : clean_and_process_data recordsGap2 =
        .ok ((okFrames (clean_and_process_data recordsGap2)).1,
          (okFrames (clean_and_process_data recordsGap2)).2) := by
      with_unfolding_all rfl
    exact hC recordsGap2 _ _ hok 1 (by with_unfolding_all decide)
      (by with_unfolding_all rfl) (by with_unfolding_all rfl)
      (by with_unfolding_all rfl)
  · have hok : clean_and_process_data recordsGap3 =
        .ok ((okFrames (clean_and_process_data recordsGap3)).1,
          (okFrames (clean_and_process_data recordsGap3)).2) := by
      with_unfolding_all rfl
    exact hD recordsGap3 _ _ hok 3 (by with_unfolding_all decide)
      (by with_unfolding_all rfl)

/-! ### Claim C4 -/

/-- Counterexample to C4 as stated: in `recordsTrail` the numeric values are
present at slot 0 and missing at the final two calendar slots (a trailing
edge gap), yet after the fill both trailing sell cells hold `some 5`:
`interpolate(method='linear', limit=2)` fills trailing gaps with the last
observed value (`np.interp` clamps) instead of leaving them missing. -/
theorem C4_counterexample :
    calendarOfRecords recordsTrail = some [0, 30, 60] ∧
    (mergedOf recordsTrail [0, 30, 60]).map (·.systemSellPrice) =
      [some 5, none, none] ∧
    (okFrames (clean_and_process_data recordsTrail)).1.system_sell_price.getD 1 none =
      some 5 ∧
    (okFrames (clean_and_process_data recordsTrail)).1.system_sell_price.getD 2 none =
      some 5 := by
  refine ⟨?_, ?_, ?_, ?_⟩ <;> with_unfolding_all rfl

/-- Claim C4 (amended): leading edge gaps (no value at or before the slot)
remain missing after the gap-fill step; trailing edge gaps do NOT remain
missing: a slot at distance at most 2 after the last present value is filled
with that value (constant extrapolation), and only slots more than 2 past the
last value stay missing.  The gap-fill step is applied in this way to each of
the three numeric columns of the calendar-aligned frame. -/
theorem C4_edge_gaps_amended :
    (∀ (ys : List (Option ℚ)) (i : Nat),
      (∀ m, m ≤ i → ys.getD m none = none) →
      (interpCol 2 ys).getD i none = none) ∧
    (∀ (ys : List (Option ℚ)) (a j : Nat) (va : ℚ),
      ys.getD a none = some va →
      (∀ m, a < m → m < ys.length → ys.getD m none = none) →
      1 ≤ j → j ≤ 2 → a + j < ys.length →
      (interpCol 2 ys).getD (a + j) none = some va) ∧
    (∀ (ys : List (Option ℚ)) (a j : Nat) (va : ℚ),
      ys.getD a none = some va →
      (∀ m, a < m → m < ys.length → ys.getD m none = none) →
      3 ≤ j →
      (interpCol 2 ys).getD (a + j) none = none) ∧
    (∀ (records : List RawRecord) (cal : List Int) (p : PricesDF) (v : VolumesDF),
      calendarOfRecords records = some cal →
      clean_and_process_data records = .ok (p, v) →
      p.system_sell_price =
        interpCol 2 ((mergedOf records cal).map (·.systemSellPrice)) ∧
      p.system_buy_price =
        interpCol 2 ((mergedOf records cal).map (·.systemBuyPrice)) ∧
      v.net_imbalance_volume =
        interpCol 2 ((mergedOf records cal).map (·.netImbalanceVolume))) := by
  refine ⟨?_, ?_, ?_, ?_⟩
  · exact fun ys i hnone => interp_none_lead ys i hnone
  · intro ys a j va ha hafter h1 h2 hlen
    exact interp_clamp_value ys a j va h1 h2 ha hafter hlen
  · intro ys a j va ha hafter hj
    refine interp_none_far ys a j va hj ha ?_
    intro m hm1 hm2
    rcases Nat.lt_or_ge m ys.length with hml | hml
    · exact hafter m hm1 hml
    · exact getD_oob ys m none hml
  · intro records cal p v hcal hok
    obtain ⟨cal2, hcal2, hp, hv⟩ := clean_ok_elim records p v hok
    rw [hcal] at hcal2
    injection hcal2 with hc
    subst hc
    subst hp
    subst hv
    exact ⟨buildFrames_fst_sell cal (sortedRowsOf records),
      buildFrames_fst_buy cal (sortedRowsOf records),
      buildFrames_snd_vol cal (sortedRowsOf records)⟩

/-- Witness for the amended C4: a leading gap stays missing; a trailing cell
within 2 slots of the last value 5 is filled with 5; a trailing cell 3 slots
past it stays missing; and through the full pipeline on `recordsLead` the
leading sell slot stays missing. -/
theorem C4_witness :
    (interpCol 2 [none, none, some 7]).getD 1 none = none ∧
    (interpCol 2 [some 5, none, none]).getD 2 none = some 5 ∧
    (interpCol 2 [some 5, none, none, none]).getD 3 none = none ∧
    (okFrames (clean_and_process_data recordsLead)).1.system_sell_price.getD 0 none =
      none := by
  obtain ⟨hLead, hClamp, hFar, hCols⟩ := C4_edge_gaps_amended
  refine ⟨?_, ?_, ?_, ?_⟩
  · exact hLead [none, none, some 7] 1 (by intro m hm; interval_cases m <;> rfl)
  · have h := hClamp [some 5, none, none] 0 2 5 rfl ?hmid2 (by omega) (le_refl 2)
      (by decide)
    case hmid2 =>
      intro m hm1 hm2
      have hm3 : m < 3 := by simpa using hm2
      interval_cases m <;> rfl
    simpa using h
  · have h := hFar [some 5, none, none, none] 0 3 5 rfl ?hmid3 (le_refl 3)
    case hmid3 =>
      intro m hm1 hm2
      have hm3 : m < 4 := by simpa using hm2
      interval_cases m <;> rfl
    simpa using h
  · have hok : clean_and_process_data recordsLead =
        .ok ((okFrames (clean_and_process_data recordsLead)).1,
          (okFrames (clean_and_process_data recordsLead)).2) := by
      with_unfolding_all rfl
    have hcal : calendarOfRecords recordsLead = some [0, 30, 60] := by
      with_unfolding_all rfl
    obtain ⟨hs, hb, hvv⟩ := hCols recordsLead [0, 30, 60] _ _ hcal hok
    rw [hs]
    refine hLead _ 0 ?_
    intro m hm
    interval_cases m
    with_unfolding_all rfl

/-! ### Claim C5 -/

/-- Claim C5: a volume row is flagged `Missing` exactly when the net imbalance
volume is still null after fill and `Good` otherwise; the source's
interpolated condition (`isna() & notna()` of the same column) is vacuous, so
`Interpolated` never appears in `volume_quality`. -/
theorem C5_volume_quality (records : List RawRecord) (p : PricesDF) (v : VolumesDF)
    (hok : clean_and_process_data records = .ok (p, v)) :
    (∀ i : Nat, i < v.volume_quality.length →
      v.volume_quality.getD i "" =
        if (v.net_imbalance_volume.getD i none).isNone then "Missing" else "Good") ∧
    "Interpolated" ∉ v.volume_quality := by
  obtain ⟨cal, hcal, hp, hv⟩ := clean_ok_elim records p v hok
  subst hv
  obtain ⟨_, hts, hvol, habs, hq⟩ := buildFrames_lengths cal (sortedRowsOf records)
  constructor
  · intro i hi
    have hn : i < (mergeLeft cal (sortedRowsOf records)).length := by
      rw [← hq]
      exact hi
    rw [buildFrames_snd_quality]
    rw [volume_flag_getD _ i (by rw [hvol]; exact hn)]
  · rw [buildFrames_snd_quality]
    exact volume_flag_not_interpolated _

/-- Witness for C5: on a concrete one-row input the volume row is `Good` and
`Interpolated` appears nowhere. -/
theorem C5_witness :
    (okFrames (clean_and_process_data recordsC1)).2.volume_quality.getD 0 "" = "Good" ∧
    "Interpolated" ∉ (okFrames (clean_and_process_data recordsC1)).2.volume_quality := by
  have hok : clean_and_process_data recordsC1 =
      .ok ((okFrames (clean_and_process_data recordsC1)).1,
        (okFrames (clean_and_process_data recordsC1)).2) := rfl
  have h := C5_volume_quality recordsC1 _ _ hok
  refine ⟨?_, h.2⟩
  rw [h.1 0 (by decide)]
  decide

/-! ### Claim C6 -/

/-- Claim C6: an input batch with zero records makes `clean_and_process_data`
raise the processing error (`BMRSError`) rather than return empty series. -/
theorem C6_empty_input_error :
    ∃ e : BMRSError, clean_and_process_data [] = .error e :=
  ⟨⟨"Error processing data: Neither `start` nor `end` can be NaT"⟩, rfl⟩

/-! ### Claim C7 -/

/-- Claim C7: on every input the pipeline either raises the single error kind
`BMRSError` or returns a complete pair of frames: every column of both frames
has the full common row count and the two frames carry identical timestamp
columns, so a caller never sees a half-populated result. -/
theorem C7_complete_or_error (records : List RawRecord) :
    (∃ e : BMRSError, clean_and_process_data records = .error e) ∨
    (∃ p v, clean_and_process_data records = .ok (p, v) ∧
      p.timestamp = v.timestamp ∧
      p.system_sell_price.length = p.timestamp.length ∧
      p.system_buy_price.length = p.timestamp.length ∧
      p.price_spread.length = p.timestamp.length ∧
      p.is_interpolated_sell.length = p.timestamp.length ∧
      p.is_interpolated_buy.length = p.timestamp.length ∧
      p.price_quality.length = p.timestamp.length ∧
      v.net_imbalance_volume.length = v.timestamp.length ∧
      v.abs_imbalance_volume.length = v.timestamp.length ∧
      v.volume_quality.length = v.timestamp.length) := by
  cases hcal : calendarOfRecords records with
  | none =>
    left
    refine ⟨⟨"Error processing data: Neither `start` nor `end` can be NaT"⟩, ?_⟩
    unfold clean_and_process_data
    rw [hcal]
  | some cal =>
    right
    refine ⟨(buildFrames cal (sortedRowsOf records)).1,
      (buildFrames cal (sortedRowsOf records)).2, ?_, ?_, ?_, ?_, ?_, ?_, ?_, ?_,
      ?_, ?_, ?_⟩
    · unfold clean_and_process_data
      rw [hcal]
    · rw [buildFrames_fst_timestamp, buildFrames_snd_timestamp]
    all_goals
      obtain ⟨⟨h1, h2, h3, h4, h5, h6, h7⟩, h8, h9, h10, h11⟩ :=
        buildFrames_lengths cal (sortedRowsOf records)
      omega

/-! ### Claim C8 -/

/-- Claim C8: coercion of the three numeric fields is total and never raises:
already numeric cells pass through unchanged, and any non-numeric or
unparsable cell (including nulls) becomes missing; `coerceRecord` applies
`to_numeric` to exactly the three numeric fields and leaves the timestamp
untouched. -/
theorem C8_coercion_total :
    (∀ q : ℚ, to_numeric (RawValue.num q) = some q) ∧
    to_numeric RawValue.unparsable = none ∧
    to_numeric RawValue.null = none ∧
    (∀ r : RawRecord, coerceRecord r =
      ⟨r.timestamp, to_numeric r.systemSellPrice, to_numeric r.systemBuyPrice,
        to_numeric r.netImbalanceVolume⟩) :=
  ⟨fun _ => rfl, rfl, rfl, fun _ => rfl⟩

/-! ### Claim C9 -/

/-- Claim C9: for frames with nonzero row counts every percentage field of
`get_data_quality_summary` equals `count / total * 100`, and in particular a
96-row price series with 3 `Missing` rows reports
`missing_periods_pct = 3.125` exactly. -/
theorem C9_summary_percentages (p : PricesDF) (v : VolumesDF)
    (hp : p.timestamp.length ≠ 0) (hv : v.timestamp.length ≠ 0) :
    ((get_data_quality_summary p v).prices.missing_periods_pct =
        (p.price_quality.count "Missing" : ℚ) / (p.timestamp.length : ℚ) * 100 ∧
      (get_data_quality_summary p v).prices.interpolated_periods_pct =
        (p.price_quality.count "Interpolated" : ℚ) / (p.timestamp.length : ℚ) * 100 ∧
      (get_data_quality_summary p v).prices.anomalies_pct =
        (p.price_quality.count "Anomaly" : ℚ) / (p.timestamp.length : ℚ) * 100 ∧
      (get_data_quality_summary p v).volumes.missing_periods_pct =
        (v.volume_quality.count "Missing" : ℚ) / (v.timestamp.length : ℚ) * 100 ∧
      (get_data_quality_summary p v).volumes.interpolated_periods_pct =
        (v.volume_quality.count "Interpolated" : ℚ) / (v.timestamp.length : ℚ) * 100) ∧
    (p.timestamp.length = 96 → p.price_quality.count "Missing" = 3 →
      (get_data_quality_summary p v).prices.missing_periods_pct = 3.125) := by
  refine ⟨⟨rfl, rfl, rfl, rfl, rfl⟩, ?_⟩
  intro h96 h3
  show (p.price_quality.count "Missing" : ℚ) / (p.timestamp.length : ℚ) * 100 = 3.125
  rw [h96, h3]
  norm_num

/-- Witness for C9: the concrete 96-row frame with 3 `Missing` rows reports a
missing percentage of exactly 3.125. -/
theorem C9_witness :
    (get_data_quality_summary prices96 volumes1).prices.missing_periods_pct =
      3.125 := by
  have h := C9_summary_percentages prices96 volumes1 (by decide) (by decide)
  exact h.2 (by decide) (by decide)

/-! ### Claim C10 -/

theorem to_numeric_rawOfCoerced (x : RawValue) :
    to_numeric (rawOfCoerced (to_numeric x)) = to_numeric x := by
  cases x <;> rfl

theorem coerce_cols_read_back (df : List RawRecord) :
    (coerceVolCol (coerceBuyCol (coerceSellCol df))).map coerceRecord =
      df.map coerceRecord := by
  unfold coerceVolCol coerceBuyCol coerceSellCol
  rw [List.map_map, List.map_map, List.map_map]
  apply List.map_congr_left
  intro r _
  simp [Function.comp, coerceRecord, to_numeric_rawOfCoerced]

/-- Claim C10: `clean_and_process_data` does not mutate its input dataframe.
In the store model the only in-place writes (the three coercion assignments)
hit the fresh cell allocated by `df.copy()`, so every pre-existing cell — in
particular the caller's frame at index `r` — is unchanged whether the call
returns a result or an error, and the returned value agrees with the pure
pipeline applied to the input frame. -/
theorem C10_no_input_mutation (h : Heap) (r j : Nat) (hj : j < h.length) :
    ((clean_and_process_data_heap h r).1).getD j [] = h.getD j [] ∧
    (clean_and_process_data_heap h r).2 = clean_and_process_data (h.getD r []) := by
  have hne : h.length ≠ j := by omega
  have g1 : (h ++ [h.getD r []]).getD h.length [] = h.getD r [] := by
    rw [List.getD_eq_getElem?_getD, List.getElem?_concat_length]
    rfl
  constructor
  · simp only [clean_and_process_data_heap]
    rw [List.getD_eq_getElem?_getD, List.getElem?_set_ne hne,
      List.getElem?_set_ne hne, List.getElem?_set_ne hne,
      List.getElem?_append_left hj, ← List.getD_eq_getElem?_getD]
  · simp only [clean_and_process_data_heap]
    rw [g1]
    rw [set_getD_self _ _ _ (by simp)]
    rw [set_getD_self _ _ _ (by simp)]
    rw [set_getD_self _ _ _ (by simp)]
    rw [coerce_cols_read_back]
    rfl

/-- Witness for C10 at a concrete one-cell store: the caller's frame is
untouched and the returned result is the pure pipeline result. -/
theorem C10_witness :
    ((clean_and_process_data_heap [recordsC1] 0).1).getD 0 [] = recordsC1 ∧
    (clean_and_process_data_heap [recordsC1] 0).2 =
      clean_and_process_data recordsC1 := by
  have h := C10_no_input_mutation [recordsC1] 0 0 (by decide)
  exact ⟨h.1, h.2⟩

end BMRS
